import Mathlib

set_option linter.unusedVariables false

/-!
Verification of the cross-thread dispatch mechanism of
`src/torrent_handle.cpp` (libtorrent).

The file embeds the dispatch primitives `torrent_handle::async_call`,
`torrent_handle::sync_call` and `torrent_handle::sync_call_ret`
(lines 69-124), the direct-read operation `info_hash` (126-132), the
deprecated constant operations (337, 428-432), validity and lifetime
(583-586, 721-724), the `get_torrent_info` static holder (598-610) and
`hash_value` (726-731).

Several complementary models are used, each faithful to a different
observable aspect of the same code:
* `Dispatch` : a denotational model.  The io_service of the session is a FIFO
  queue of tasks; a blocking call returns only after the executor has run
  every earlier task and then its own, so its denotation runs the queue.
* `Events`   : the intra-task ordering of the blocking-call closures
  (method invocation, result store, mutex, done flag, notify).
* `HerdWake` : an interleaving model of the shared mutex / condition
  variable protocol used by the blocking calls, with one private done
  flag per call and herd wakeups by notify_all.
* `Lifetime` : the weak_ptr liveness model (expiry is permanent).
* `InfoCache`: the rotating 4-slot static holder of `get_torrent_info`.
* `Identity` : the object-representation model of `hash_value`.
-/

namespace Libtorrent

namespace Dispatch

/-- The session state seen by the dispatch layer.  `actor` is the torrent
object owned by the executor (`none` once the torrent has been destroyed
and the weak reference is expired); `queue` is the pending io_service
FIFO task list.  A task mutates the actor state. -/
structure World (σ : Type) where
  actor : Option σ
  queue : List (σ → σ)

/-- The single-threaded executor runs pending tasks strictly in FIFO
order, each transforming the actor state. -/
def runQueue {σ : Type} (s : σ) (q : List (σ → σ)) : σ :=
  q.foldl (fun st f => f st) s

/-- Embeds `torrent_handle::async_call` (lines 69-77): lock the weak reference;
if expired (`TORRENT_ASSERT_PRECOND` is compiled out in release builds)
return at once having done nothing; otherwise enqueue a task that invokes
the method on the actor, and return without waiting. -/
def async_call {σ : Type} (w : World σ) (f : σ → σ) : World σ :=
  match w.actor with
  | none => w
  | some _ => { w with queue := w.queue ++ [f] }

/-- Embeds `torrent_handle::sync_call` (lines 79-99): lock the weak reference;
if expired return at once; otherwise enqueue a task that invokes the
method, then sets the done flag under `ses.mut` and notifies, and block
in `aux::torrent_wait` until the flag is set.  Because the executor is
FIFO, at the moment the caller resumes every task that was already queued
has run, and then the dispatched method itself has run to completion. -/
def sync_call {σ : Type} (w : World σ) (f : σ → σ) : World σ :=
  match w.actor with
  | none => w
  | some s => { actor := some (f (runQueue s w.queue)), queue := [] }

/-- Embeds `torrent_handle::sync_call_ret` (lines 101-124): `Ret r = def;` then
lock the weak reference; if expired return `r` (the default) at once;
otherwise enqueue a task that stores the method return value into `r`
before setting the done flag, wait for the flag, and return `r`.  A
method both transforms the state and returns a value. -/
def sync_call_ret {σ ρ : Type} (w : World σ) (d : ρ) (f : σ → σ × ρ) :
    World σ × ρ :=
  match w.actor with
  | none => (w, d)
  | some s =>
      let s0 := runQueue s w.queue
      ({ actor := some (f s0).1, queue := [] }, (f s0).2)

/-- The fragment of the torrent actor state the verified operations
touch.  The torrent class itself is not under src/; its methods are
opaque state readers and writers as the spec requires. -/
structure torrent where
  queuePos : Int
  infoHash : List Nat

/-- Modelled from the spec: `torrent::queue_position` is not under src/;
it is an opaque const method reading the actor queue position. -/
def torrent.queue_position (t : torrent) : torrent × Int :=
  (t, t.queuePos)

/-- Embeds `torrent_handle::queue_position` (lines 306-309): forwards through
`sync_call_ret` with default `-1`. -/
def queue_position (w : World torrent) : World torrent × Int :=
  sync_call_ret w (-1) torrent.queue_position

/-- The default-constructed `sha1_hash` (`static const sha1_hash empty;`,
line 129): twenty zero bytes. -/
def emptySha1 : List Nat := List.replicate 20 0

/-- Embeds `torrent_handle::info_hash` (lines 126-132): locks the weak reference
on the calling thread; if expired returns the default-constructed (all
zero) hash, otherwise reads `t->info_hash()` directly.  No task is ever
submitted to the executor, so the world is returned untouched and a live
read does not drain the queue. -/
def info_hash (w : World torrent) : World torrent × List Nat :=
  match w.actor with
  | none => (w, emptySha1)
  | some t => (w, t.infoHash)

/-- Model of `tcp::endpoint`, opaque to the verified code. -/
structure endpointT where
  addr : Nat
  port : Nat

/-- Embeds `torrent_handle::get_peer_upload_limit` (line 428):
`{ return -1; }`. -/
def get_peer_upload_limit (w : World torrent) (ep : endpointT) : Int := -1

/-- Embeds `torrent_handle::get_peer_download_limit` (line 429):
`{ return -1; }`. -/
def get_peer_download_limit (w : World torrent) (ep : endpointT) : Int := -1

/-- Embeds `torrent_handle::set_peer_upload_limit` (line 430): empty body. -/
def set_peer_upload_limit (w : World torrent) (ep : endpointT)
    (limit : Int) : World torrent := w

/-- Embeds `torrent_handle::set_peer_download_limit` (line 431): empty body. -/
def set_peer_download_limit (w : World torrent) (ep : endpointT)
    (limit : Int) : World torrent := w

/-- Embeds `torrent_handle::set_ratio` (line 432): empty body; the float
argument is never examined, so it is modelled opaquely. -/
def set_ratio {α : Type} (w : World torrent) (x : α) : World torrent := w

/-- Embeds `torrent_handle::set_priority` (line 337): empty body. -/
def set_priority (w : World torrent) (p : Int) : World torrent := w

end Dispatch

namespace Events

/-- The primitive actions performed by the closures that `sync_call`
and `sync_call_ret` hand to the executor. -/
inductive TaskEvent
  | invokeMethod
  | storeResult
  | lockMutex
  | setDone
  | notifyAll
  | unlockMutex
  deriving DecidableEq

/-- The body of the task dispatched by `sync_call` (lines 90-96):
`(t.get()->*f)(a...); unique_lock l(ses.mut); done = true;
ses.cond.notify_all();` and the lock is released when `l` leaves
scope. -/
def sync_call_task_events : List TaskEvent :=
  [.invokeMethod, .lockMutex, .setDone, .notifyAll, .unlockMutex]

/-- The body of the task dispatched by `sync_call_ret` (lines 113-119):
`r = (t.get()->*f)(a...);` (the invocation completes, then its value is
stored into the result slot), then the same flag protocol. -/
def sync_call_ret_task_events : List TaskEvent :=
  [.invokeMethod, .storeResult, .lockMutex, .setDone, .notifyAll,
   .unlockMutex]

end Events

namespace Lifetime

/-- Liveness of the torrent control blocks: `alive n` tells whether the
shared state numbered `n` still holds a live object. -/
structure LifeWorld where
  alive : Nat → Bool

/-- Modelled from the spec (and the C++ `shared_ptr` contract, which is
library code not under src/): one step of program evolution may destroy
torrents, but a destroyed control block is never resurrected, so
liveness only ever decreases pointwise. -/
def LifeStep (w w2 : LifeWorld) : Prop :=
  ∀ n, w2.alive n = true → w.alive n = true

/-- Any number of program steps. -/
def Evolves : LifeWorld → LifeWorld → Prop :=
  Relation.ReflTransGen LifeStep

/-- The handle member `std::weak_ptr<torrent> m_torrent`, identified
by the control block it refers to. -/
structure weak_ptr where
  id : Nat

/-- Embeds `m_torrent.expired()`. -/
def expired (w : LifeWorld) (p : weak_ptr) : Bool :=
  ! w.alive p.id

/-- Embeds `m_torrent.lock()`: a strong reference if the object is alive, else
empty. -/
def lock (w : LifeWorld) (p : weak_ptr) : Option Nat :=
  if w.alive p.id then some p.id else none

/-- The handle wraps exactly one weak reference. -/
structure torrent_handle where
  m_torrent : weak_ptr

/-- Embeds `torrent_handle::is_valid` (lines 583-586):
`return !m_torrent.expired();`. -/
def is_valid (w : LifeWorld) (h : torrent_handle) : Bool :=
  ! expired w h.m_torrent

/-- Embeds `torrent_handle::native_handle` (lines 721-724):
`return m_torrent.lock();`. -/
def native_handle (w : LifeWorld) (h : torrent_handle) : Option Nat :=
  lock w h.m_torrent

end Lifetime

namespace Identity

/-- Model of the in-memory object representation of
`std::weak_ptr<torrent>`.  `ptrWord` is the first machine word of that
representation (the stored element pointer), which is what
`hash_value` reinterprets; `stableId` models the stable
creation-time identity token (for a torrent, its info-hash), which the
spec requires identity to be computed from.  The code never reads
`stableId`. -/
structure WeakPtrRepr where
  ptrWord : Nat
  stableId : Nat
  deriving DecidableEq

/-- The handle as laid out in memory. -/
structure torrent_handle where
  m_torrent : WeakPtrRepr
  deriving DecidableEq

/-- Embeds `hash_value` (lines 726-731):
`return std::size_t(*reinterpret_cast<void* const*>(&th.m_torrent));` —
the hash is the raw first word of the weak reference object
representation. -/
def hash_value (th : torrent_handle) : Nat :=
  th.m_torrent.ptrWord

end Identity

namespace InfoCache

/-- The static state of `torrent_handle::get_torrent_info`
(lines 598-610): `static shared_ptr<const torrent_info> holder[4];
static int cursor = 0;`.  A slot holding `none` never had a pointer
stored in it. -/
structure InfoHolder (α : Type) where
  holder : Fin 4 → Option α
  cursor : Nat

/-- The initial static state: empty slots, cursor 0. -/
def initHolder (α : Type) : InfoHolder α :=
  { holder := fun _ => none, cursor := 0 }

/-- The per-call update of the static state (lines 607-608):
`holder[cursor++] = r; cursor = cursor % 4;`. -/
def gti_store {α : Type} (s : InfoHolder α) (r : α) : InfoHolder α :=
  { holder := fun i => if i.val = s.cursor then some r else s.holder i
    cursor := (s.cursor + 1) % 4 }

/-- The static state after a sequence of `get_torrent_info` calls that
fetched the pointers `rs` in order, starting from program start. -/
def gti_run {α : Type} (rs : List α) : InfoHolder α :=
  rs.foldl gti_store (initHolder α)

end InfoCache

namespace HerdWake

/-!
Interleaving model of the blocking-call completion protocol
(lines 87-98 and 110-121).  `n` calling threads each issue one blocking
call on the same live actor.  Call `i` has a private stack-allocated
`done` flag and a private result slot `r`; all calls share the one
executor mutex `ses.mut` and condition variable `ses.cond`.  The
executor runs the tasks one at a time (single-threaded io_service): it
invokes the method and stores the result, then — under the mutex — sets
the private flag of that call and calls `notify_all`, waking every sleeping
waiter (herd wake).  A waiter in `aux::torrent_wait` holds the mutex
while it checks its own flag and, if the flag is still false, atomically
releases the mutex and sleeps on the condition variable; that
check-and-sleep is one atomic step because the mutex is held throughout,
which is exactly what rules out the missed wakeup.
-/

/-- What a calling thread blocked in `aux::torrent_wait` is doing. -/
inductive WaiterStatus
  | running
  | sleeping
  | returned
  deriving DecidableEq

/-- Global state: per call `i`, whether the executor has invoked its
method yet, its private done flag, its private result slot, and the
status of its calling thread.  `val i` (a parameter of the step
relation) is the value produced by the method of call `i`. -/
structure SysState (n : Nat) where
  invoked : Fin n → Bool
  doneFlag : Fin n → Bool
  result : Fin n → Int
  waiter : Fin n → WaiterStatus

/-- All tasks pending, no flag set, every caller about to wait. -/
def initState (n : Nat) : SysState n :=
  { invoked := fun _ => false
    doneFlag := fun _ => false
    result := fun _ => 0
    waiter := fun _ => WaiterStatus.running }

/-- The atomic steps of the protocol. -/
inductive Step {n : Nat} (val : Fin n → Int) :
    SysState n → SysState n → Prop
  /- The single-threaded executor picks the not-yet-run task `i` (no
  other task may be mid-flight) and runs its first half:
  `r = (t.get()->*f)(a...);` — invoke the method, store the value into
  the private slot of call `i`. -/
  | invoke (i : Fin n) (s : SysState n)
      (hser : ∀ j, s.invoked j = true → s.doneFlag j = true)
      (hi : s.invoked i = false) :
      Step val s
        { s with
          invoked := Function.update s.invoked i true
          result := Function.update s.result i (val i) }
  /- The second half of task `i`, all under `ses.mut`:
  `done = true; ses.cond.notify_all();` — set the private flag and wake
  every sleeping waiter. -/
  | complete (i : Fin n) (s : SysState n)
      (hinv : s.invoked i = true) (hnd : s.doneFlag i = false) :
      Step val s
        { s with
          doneFlag := Function.update s.doneFlag i true
          waiter := fun j =>
            if s.waiter j = WaiterStatus.sleeping then WaiterStatus.running
            else s.waiter j }
  /- Waiter `i` holds the mutex and checks its predicate: if its own
  flag is set it returns from `torrent_wait`, otherwise it atomically
  releases the mutex and sleeps on `ses.cond`. -/
  | check (i : Fin n) (s : SysState n)
      (hr : s.waiter i = WaiterStatus.running) :
      Step val s
        { s with
          waiter := Function.update s.waiter i
            (if s.doneFlag i then WaiterStatus.returned
             else WaiterStatus.sleeping) }

/-- States reachable from the all-pending initial state. -/
def Reachable {n : Nat} (val : Fin n → Int) (s : SysState n) : Prop :=
  Relation.ReflTransGen (Step val) (initState n) s

/-- The inductive invariant: an invoked task has already stored its own
value into its own slot, and a set done flag means its waiter is not
asleep (it was woken by the notify_all of that task and a recheck with the
flag set returns rather than re-sleeping). -/
def Inv {n : Nat} (val : Fin n → Int) (s : SysState n) : Prop :=
  (∀ i, s.invoked i = true → s.result i = val i) ∧
  (∀ i, s.doneFlag i = true → s.waiter i ≠ WaiterStatus.sleeping)

end HerdWake

open Dispatch Events

/-- C1: if the weak reference of the handle fails to upgrade, `async_call`
and `sync_call` return immediately as a silent no-op: no method is
invoked, no task is submitted to the executor, no error is raised, and
the world is completely unchanged. -/
theorem C1_dead_actor_silent_noop {σ : Type} (w : World σ)
    (hdead : w.actor = none) (f : σ → σ) :
    async_call w f = w ∧ sync_call w f = w := by
  unfold async_call sync_call
  rw [hdead]
  exact ⟨rfl, rfl⟩

/-- C1 witness: a destroyed actor with a pending queue; both dispatches
leave the world untouched. -/
theorem C1_dead_actor_silent_noop_witness :
    async_call { actor := none, queue := [] } (fun n => n + 1) =
      ({ actor := none, queue := [] } : World Nat) ∧
    sync_call { actor := none, queue := [] } (fun n => n + 1) =
      ({ actor := none, queue := [] } : World Nat) :=
  C1_dead_actor_silent_noop { actor := none, queue := [] } rfl
    (fun n => n + 1)

/-- C2: on a failed upgrade, `sync_call_ret` returns exactly the
supplied default without invoking anything and without touching the
world; in particular `queue_position` on a destroyed actor returns
exactly `-1`. -/
theorem C2_dead_actor_default_value (w : World torrent)
    (hdead : w.actor = none) :
    (∀ (ρ : Type) (d : ρ) (f : torrent → torrent × ρ),
      sync_call_ret w d f = (w, d)) ∧
    (queue_position w).2 = -1 := by
  constructor
  · intro ρ d f
    unfold sync_call_ret
    rw [hdead]
  · unfold queue_position sync_call_ret
    rw [hdead]

/-- C2 witness: a destroyed actor; `sync_call_ret` hands back the
default `7` and `queue_position` hands back `-1`. -/
theorem C2_dead_actor_default_value_witness :
    sync_call_ret ({ actor := none, queue := [] } : World torrent) (7 : Int)
      torrent.queue_position =
      ({ actor := none, queue := [] }, (7 : Int)) ∧
    (queue_position { actor := none, queue := [] }).2 = -1 :=
  ⟨(C2_dead_actor_default_value { actor := none, queue := [] } rfl).1
      Int 7 torrent.queue_position,
   (C2_dead_actor_default_value { actor := none, queue := [] } rfl).2⟩

/-- C3: in the task dispatched by `sync_call` the method is invoked
first, and only afterwards is the completion flag set while the shared
mutex is held, followed by the notification; the caller waits for the
flag, so when it resumes the mutation is visible to a subsequent
blocking call: reading the state through `sync_call_ret` right after
`sync_call w f` observes exactly the state `f` produced. -/
theorem C3_sync_call_completion_order {σ ρ : Type} (w : World σ) (s : σ)
    (halive : w.actor = some s) (f : σ → σ) (g : σ → ρ) (d : ρ) :
    (sync_call_task_events.indexOf TaskEvent.invokeMethod <
        sync_call_task_events.indexOf TaskEvent.setDone ∧
      sync_call_task_events.indexOf TaskEvent.lockMutex <
        sync_call_task_events.indexOf TaskEvent.setDone ∧
      sync_call_task_events.indexOf TaskEvent.setDone <
        sync_call_task_events.indexOf TaskEvent.notifyAll ∧
      sync_call_task_events.indexOf TaskEvent.notifyAll <
        sync_call_task_events.indexOf TaskEvent.unlockMutex) ∧
    (sync_call_ret (sync_call w f) d (fun st => (st, g st))).2 =
      g (f (runQueue s w.queue)) := by
  refine ⟨by decide, ?_⟩
  simp [sync_call, sync_call_ret, halive, runQueue]

/-- C3 witness: a live actor holding `10` with one queued task; the
sync call applies its mutation after the pending task and the follow-up
read observes it. -/
theorem C3_sync_call_completion_order_witness :
    (sync_call_task_events.indexOf TaskEvent.invokeMethod <
        sync_call_task_events.indexOf TaskEvent.setDone ∧
      sync_call_task_events.indexOf TaskEvent.lockMutex <
        sync_call_task_events.indexOf TaskEvent.setDone ∧
      sync_call_task_events.indexOf TaskEvent.setDone <
        sync_call_task_events.indexOf TaskEvent.notifyAll ∧
      sync_call_task_events.indexOf TaskEvent.notifyAll <
        sync_call_task_events.indexOf TaskEvent.unlockMutex) ∧
    (sync_call_ret
        (sync_call { actor := some 10, queue := [fun n => n * 2] }
          (fun n => n + 1))
        (0 : Nat) (fun st => (st, st))).2 = 21 :=
  C3_sync_call_completion_order
    { actor := some 10, queue := [fun n => n * 2] } 10 rfl
    (fun n => n + 1) (fun st => st) 0

/-- C4: in the task dispatched by `sync_call_ret` the method return
value is stored into the result slot after the invocation completes and
before the done flag is set and signalled, and the value handed back to
the caller is exactly the value the method returned when it executed on
the executor thread, not the default. -/
theorem C4_sync_call_ret_snapshot {σ ρ : Type} (w : World σ) (s : σ)
    (halive : w.actor = some s) (f : σ → σ × ρ) (d : ρ) :
    (sync_call_ret_task_events.indexOf TaskEvent.invokeMethod <
        sync_call_ret_task_events.indexOf TaskEvent.storeResult ∧
      sync_call_ret_task_events.indexOf TaskEvent.storeResult <
        sync_call_ret_task_events.indexOf TaskEvent.setDone ∧
      sync_call_ret_task_events.indexOf TaskEvent.setDone <
        sync_call_ret_task_events.indexOf TaskEvent.notifyAll) ∧
    (sync_call_ret w d f).2 = (f (runQueue s w.queue)).2 := by
  refine ⟨by decide, ?_⟩
  simp [sync_call_ret, halive]

/-- C4 witness: a live torrent at queue position `3`; `queue_position`
returns the stored value `3`, not the default `-1`. -/
theorem C4_sync_call_ret_snapshot_witness :
    (sync_call_ret_task_events.indexOf TaskEvent.invokeMethod <
        sync_call_ret_task_events.indexOf TaskEvent.storeResult ∧
      sync_call_ret_task_events.indexOf TaskEvent.storeResult <
        sync_call_ret_task_events.indexOf TaskEvent.setDone ∧
      sync_call_ret_task_events.indexOf TaskEvent.setDone <
        sync_call_ret_task_events.indexOf TaskEvent.notifyAll) ∧
    (sync_call_ret
        ({ actor := some { queuePos := 3, infoHash := [] }, queue := [] } :
          World torrent)
        (-1 : Int) torrent.queue_position).2 = 3 :=
  C4_sync_call_ret_snapshot
    { actor := some { queuePos := 3, infoHash := [] }, queue := [] }
    { queuePos := 3, infoHash := [] } rfl torrent.queue_position (-1)

/-- C8: `info_hash` never dispatches to the executor: the world (and in
particular the task queue) is returned untouched, on an expired handle
the default-constructed all-zero hash is returned without invoking
anything, and on a live handle the actor is read directly on the calling
thread (even pending queued tasks are not run first). -/
theorem C8_info_hash_direct_read :
    (∀ w : World torrent, (info_hash w).1 = w) ∧
    (∀ w : World torrent, w.actor = none →
      (info_hash w).2 = emptySha1 ∧ (info_hash w).2 = List.replicate 20 0) ∧
    (∀ (w : World torrent) (t : torrent), w.actor = some t →
      (info_hash w).2 = t.infoHash) := by
  refine ⟨?_, ?_, ?_⟩
  · intro w
    unfold info_hash
    cases h : w.actor <;> simp
  · intro w hdead
    unfold info_hash
    rw [hdead]
    exact ⟨rfl, rfl⟩
  · intro w t halive
    unfold info_hash
    rw [halive]

/-- C8 witness: on an expired handle the all-zero hash comes back; on a
live handle with a pending queued task the stored hash is read directly,
bypassing the queue. -/
theorem C8_info_hash_direct_read_witness :
    (info_hash ({ actor := none, queue := [] } : World torrent)).2 =
      List.replicate 20 0 ∧
    (info_hash
        ({ actor := some { queuePos := 0, infoHash := [1, 2, 3] }
           queue := [fun t => { t with infoHash := [9] }] } :
          World torrent)).2 = [1, 2, 3] :=
  ⟨((C8_info_hash_direct_read.2.1 { actor := none, queue := [] } rfl).2),
   C8_info_hash_direct_read.2.2
     { actor := some { queuePos := 0, infoHash := [1, 2, 3] }
       queue := [fun t => { t with infoHash := [9] }] }
     { queuePos := 0, infoHash := [1, 2, 3] } rfl⟩

/-- C10: the deprecated per-peer limit operations are pure constants:
for every endpoint and every handle state the getters return exactly
`-1`, and the setters, `set_ratio` and `set_priority` leave the world
unchanged. -/
theorem C10_deprecated_ops_constants :
    (∀ (w : World torrent) (ep : endpointT),
      get_peer_upload_limit w ep = -1 ∧
      get_peer_download_limit w ep = -1) ∧
    (∀ (w : World torrent) (ep : endpointT) (l : Int),
      set_peer_upload_limit w ep l = w ∧
      set_peer_download_limit w ep l = w) ∧
    (∀ (w : World torrent) (x : Int), set_ratio w x = w) ∧
    (∀ (w : World torrent) (p : Int), set_priority w p = w) :=
  ⟨fun _ _ => ⟨rfl, rfl⟩, fun _ _ _ => ⟨rfl, rfl⟩, fun _ _ => rfl,
   fun _ _ => rfl⟩

/-- C6: the claim that `hash_value` derives from a stable creation-time
identity token is false of the code: the hash is exactly the
reinterpreted first machine word of the weak reference object
representation, so two handles to distinct actors (different stable
identity tokens `1` and `2`) whose weak references happen to carry the
same raw word — as after address reuse — collide, while the stable
tokens would distinguish them. -/
theorem C6_hash_value_reinterprets_bits :
    (∀ th : Identity.torrent_handle,
      Identity.hash_value th = th.m_torrent.ptrWord) ∧
    Identity.hash_value { m_torrent := { ptrWord := 100, stableId := 1 } } =
      Identity.hash_value { m_torrent := { ptrWord := 100, stableId := 2 } } ∧
    Identity.WeakPtrRepr.stableId
        (Identity.torrent_handle.m_torrent
          { m_torrent := { ptrWord := 100, stableId := 1 } }) = 1 ∧
    Identity.WeakPtrRepr.stableId
        (Identity.torrent_handle.m_torrent
          { m_torrent := { ptrWord := 100, stableId := 2 } }) = 2 :=
  ⟨fun _ => rfl, rfl, rfl, rfl⟩

/-- C7: validity is monotonic: once `is_valid` reports false (the weak
reference has expired), it reports false in every later state the
program can evolve to, and `native_handle` never again yields a strong
reference — destruction is permanent, no resurrection. -/
theorem C7_validity_monotonic (w w2 : Lifetime.LifeWorld)
    (hE : Lifetime.Evolves w w2) (th : Lifetime.torrent_handle)
    (hv : Lifetime.is_valid w th = false) :
    Lifetime.is_valid w2 th = false ∧
    Lifetime.native_handle w2 th = none := by
  have hdead : w.alive th.m_torrent.id = false := by
    simpa [Lifetime.is_valid, Lifetime.expired] using hv
  have key : w2.alive th.m_torrent.id = false := by
    induction hE with
    | refl => exact hdead
    | tail hsteps hstep ih =>
        rename_i b c
        by_contra hc
        have hc2 : c.alive th.m_torrent.id = true := by
          cases hval : c.alive th.m_torrent.id
          · exact absurd hval hc
          · rfl
        have := hstep th.m_torrent.id hc2
        rw [ih] at this
        exact Bool.false_ne_true this
  constructor
  · simp [Lifetime.is_valid, Lifetime.expired, key]
  · simp [Lifetime.native_handle, Lifetime.lock, key]

/-- C7 witness: a world where actor `0` is destroyed, evolving to
itself by zero steps; the handle stays invalid and yields no strong
reference. -/
theorem C7_validity_monotonic_witness :
    Lifetime.is_valid { alive := fun _ => false }
        { m_torrent := { id := 0 } } = false ∧
    Lifetime.native_handle { alive := fun _ => false }
        { m_torrent := { id := 0 } } = none :=
  C7_validity_monotonic { alive := fun _ => false }
    { alive := fun _ => false } Relation.ReflTransGen.refl
    { m_torrent := { id := 0 } } rfl

namespace HerdWake

/-- The invariant holds at the initial state. -/
lemma inv_init {n : Nat} (val : Fin n → Int) : Inv val (initState n) := by
  constructor
  · intro i hi
    simp [initState] at hi
  · intro i hi
    simp [initState] at hi

/-- Every protocol step preserves the invariant. -/
lemma inv_step {n : Nat} (val : Fin n → Int) (s s2 : SysState n)
    (hInv : Inv val s) (hstep : Step val s s2) : Inv val s2 := by
  cases hstep with
  | invoke i s hser hi =>
      constructor
      · intro j hj
        by_cases hij : j = i
        · subst hij
          simp [Function.update]
        · simp only [Function.update_noteq hij] at hj ⊢
          exact hInv.1 j hj
      · intro j hj
        exact hInv.2 j hj
  | complete i s hinv hnd =>
      constructor
      · intro j hj
        exact hInv.1 j hj
      · intro j hj
        by_cases hs : s.waiter j = WaiterStatus.sleeping
        · simp only [hs]
          simp
        · simp only [if_neg hs]
          exact hs
  | check i s hr =>
      constructor
      · intro j hj
        exact hInv.1 j hj
      · intro j hj
        by_cases hij : j = i
        · subst hij
          simp only [Function.update_same]
          rw [if_pos hj]
          simp
        · simp only [Function.update_noteq hij]
          exact hInv.2 j hj

/-- Every reachable state satisfies the invariant. -/
lemma inv_reachable {n : Nat} (val : Fin n → Int) (s : SysState n)
    (hreach : Reachable val s) : Inv val s := by
  induction hreach with
  | refl => exact inv_init val
  | tail hsteps hstep ih =>
      rename_i b c
      exact inv_step val b c ih hstep

end HerdWake

/-- C5: in the shared mutex / condition pair protocol, every completed
call notification is observed by its own waiter: in any reachable
state of the N-caller system in which no step is possible any more (no
task left to run, no waiter able to act), every one of the N blocking
calls has returned — no missed wakeup, no permanent hang — and each
private result slot of each caller holds the value of its own call, not that of another
caller. -/
theorem C5_no_missed_wakeup {n : Nat} (val : Fin n → Int)
    (s : HerdWake.SysState n) (hreach : HerdWake.Reachable val s)
    (hterm : ∀ s2, ¬ HerdWake.Step val s s2) :
    ∀ i, s.waiter i = HerdWake.WaiterStatus.returned ∧
      s.result i = val i ∧ s.doneFlag i = true := by
  have hInv := HerdWake.inv_reachable val s hreach
  have hid : ∀ i, s.invoked i = true → s.doneFlag i = true := by
    intro i hi
    cases hd : s.doneFlag i
    · exact absurd (HerdWake.Step.complete i s hi hd) (hterm _)
    · rfl
  have hall : ∀ i, s.invoked i = true := by
    intro i
    cases hi : s.invoked i
    · exact absurd (HerdWake.Step.invoke i s hid hi) (hterm _)
    · rfl
  have hdone : ∀ i, s.doneFlag i = true := fun i => hid i (hall i)
  have hnr : ∀ i, s.waiter i ≠ HerdWake.WaiterStatus.running := by
    intro i hr
    exact absurd (HerdWake.Step.check i s hr) (hterm _)
  intro i
  have hns := hInv.2 i (hdone i)
  have hret : s.waiter i = HerdWake.WaiterStatus.returned := by
    cases hw : s.waiter i
    · exact absurd hw (hnr i)
    · exact absurd hw hns
    · rfl
  exact ⟨hret, hInv.1 i (hall i), hdone i⟩

namespace HerdWake

/-- A one-caller run used to exhibit a terminal reachable state: the
method of call `0` returns `7`. -/
def hwVal : Fin 1 → Int := fun _ => 7

/-- State after the executor has invoked the method of call `0`. -/
def hwS1 : SysState 1 :=
  { initState 1 with
    invoked := Function.update (initState 1).invoked 0 true
    result := Function.update (initState 1).result 0 (hwVal 0) }

/-- State after the executor has set the flag of call `0` and notified. -/
def hwS2 : SysState 1 :=
  { hwS1 with
    doneFlag := Function.update hwS1.doneFlag 0 true
    waiter := fun j =>
      if hwS1.waiter j = WaiterStatus.sleeping then WaiterStatus.running
      else hwS1.waiter j }

/-- State after waiter `0` has rechecked its flag and returned. -/
def hwS3 : SysState 1 :=
  { hwS2 with
    waiter := Function.update hwS2.waiter 0
      (if hwS2.doneFlag 0 then WaiterStatus.returned
       else WaiterStatus.sleeping) }

/-- The executor may invoke the method of call `0` first. -/
lemma hwStep1 : Step hwVal (initState 1) hwS1 :=
  Step.invoke 0 (initState 1)
    (by intro j h; simp [initState] at h) (by decide)

/-- Then it completes call `0`: flag and notify_all. -/
lemma hwStep2 : Step hwVal hwS1 hwS2 :=
  Step.complete 0 hwS1 (by decide) (by decide)

/-- Then waiter `0` checks its flag and returns. -/
lemma hwStep3 : Step hwVal hwS2 hwS3 :=
  Step.check 0 hwS2 (by decide)

/-- The end state of that run is reachable. -/
lemma hwReach : Reachable hwVal hwS3 :=
  Relation.ReflTransGen.tail
    (Relation.ReflTransGen.tail (Relation.ReflTransGen.single hwStep1)
      hwStep2)
    hwStep3

/-- The end state of that run admits no further step. -/
lemma hwTerm : ∀ s2, ¬ Step hwVal hwS3 s2 := by
  intro s2 h
  cases h with
  | invoke i s hser hi =>
      have hi0 : (0 : Fin 1) = i := Subsingleton.elim _ _
      rw [← hi0] at hi
      revert hi
      decide
  | complete i s hinv hnd =>
      have hi0 : (0 : Fin 1) = i := Subsingleton.elim _ _
      rw [← hi0] at hnd
      revert hnd
      decide
  | check i s hr =>
      have hi0 : (0 : Fin 1) = i := Subsingleton.elim _ _
      rw [← hi0] at hr
      revert hr
      decide

end HerdWake

/-- C5 witness: the concrete one-caller terminal run; its waiter has
returned with the value of its own method `7` and its flag set. -/
theorem C5_no_missed_wakeup_witness :
    HerdWake.hwS3.waiter 0 = HerdWake.WaiterStatus.returned ∧
    HerdWake.hwS3.result 0 = HerdWake.hwVal 0 ∧
    HerdWake.hwS3.doneFlag 0 = true :=
  C5_no_missed_wakeup HerdWake.hwVal HerdWake.hwS3 HerdWake.hwReach
    HerdWake.hwTerm 0

namespace InfoCache

/-- Folding one more call onto a run. -/
lemma gti_run_append {α : Type} (rs : List α) (a : α) :
    gti_run (rs ++ [a]) = gti_store (gti_run rs) a := by
  simp [gti_run, List.foldl_append]

/-- Positional description of the static state after a run: the cursor
is the call count mod 4; a slot indexed by the residue of a position in
the last-four window holds exactly the pointer fetched at that position;
a slot whose residue was never written is still empty. -/
lemma gti_run_spec {α : Type} (rs : List α) :
    (gti_run rs).cursor = rs.length % 4 ∧
    (∀ p : Nat, p < rs.length → rs.length ≤ p + 4 → ∀ hp : p % 4 < 4,
      (gti_run rs).holder ⟨p % 4, hp⟩ = rs[p]?) ∧
    (∀ i : Fin 4, (∀ p, p < rs.length → p % 4 ≠ i.val) →
      (gti_run rs).holder i = none) := by
  induction rs using List.reverseRecOn with
  | nil =>
      refine ⟨rfl, ?_, ?_⟩
      · intro p hp
        simp at hp
      · intro i hi
        rfl
  | append_singleton l a ih =>
      obtain ⟨ihc, ihp, ihn⟩ := ih
      rw [gti_run_append]
      refine ⟨?_, ?_, ?_⟩
      · simp only [gti_store, ihc, List.length_append, List.length_cons,
          List.length_nil]
        omega
      · intro p hp1 hp2 hmod
        have hp1l : p < l.length + 1 := by simpa using hp1
        have hp2l : l.length + 1 ≤ p + 4 := by simpa using hp2
        simp only [gti_store, ihc]
        by_cases hpn : p = l.length
        · subst hpn
          rw [if_pos rfl]
          exact (List.getElem?_concat_length l a).symm
        · have hplt : p < l.length := by omega
          have hne : p % 4 ≠ l.length % 4 := by omega
          rw [if_neg hne]
          rw [List.getElem?_append_left hplt]
          exact ihp p hplt (by omega) hmod
      · intro i hforall
        simp only [gti_store, ihc]
        have hlen : l.length < (l ++ [a]).length := by simp
        have hne : i.val ≠ l.length % 4 := fun h =>
          hforall l.length hlen h.symm
        rw [if_neg hne]
        exact ihn i fun p hp =>
          hforall p (by simp only [List.length_append]; omega)

end InfoCache

/-- C9: `get_torrent_info` stores each fetched pointer into the global
rotating 4-slot buffer: after every sequence of calls the cursor is back
in the range `[0, 4)`, and any pointer still held in a slot was fetched
by one of the 4 most recent calls, so a fifth call overwrites (and may
release) the object a reference returned four calls earlier pointed to —
concretely, after fetching `1, 2, 3, 4, 5` no slot still holds `1`. -/
theorem C9_rotating_holder {α : Type} (rs : List α) :
    (InfoCache.gti_run rs).cursor < 4 ∧
    (∀ (i : Fin 4) (x : α), (InfoCache.gti_run rs).holder i = some x →
      ∃ p, p < rs.length ∧ rs.length ≤ p + 4 ∧ rs[p]? = some x) ∧
    (∀ i : Fin 4,
      (InfoCache.gti_run ([1, 2, 3, 4, 5] : List Nat)).holder i ≠
        some 1) := by
  obtain ⟨hc, hwin, hnone⟩ := InfoCache.gti_run_spec rs
  refine ⟨?_, ?_, by decide⟩
  · rw [hc]
    omega
  · intro i x hx
    by_cases hw : ∃ p, p < rs.length ∧ rs.length ≤ p + 4 ∧ p % 4 = i.val
    · obtain ⟨p, h1, h2, h3⟩ := hw
      have hval := hwin p h1 h2 (by omega)
      have hfin : (⟨p % 4, by omega⟩ : Fin 4) = i := Fin.ext h3
      rw [hfin] at hval
      rw [hval] at hx
      exact ⟨p, h1, h2, hx⟩
    · push_neg at hw
      by_cases hn4 : rs.length < 4
      · have hempty := hnone i fun p hp => hw p hp (by omega)
        rw [hempty] at hx
        exact absurd hx (by simp)
      · exfalso
        have hiv : i.val < 4 := i.isLt
        refine hw (rs.length - 4 + ((i.val + 4 - rs.length % 4) % 4))
          (by omega) (by omega) ?_
        omega

/-- C9 witness: after the five fetches `1, 2, 3, 4, 5` the cursor is
back below 4 and the pointer `5` held in slot 0 was indeed fetched by
one of the last four calls. -/
theorem C9_rotating_holder_witness :
    (InfoCache.gti_run ([1, 2, 3, 4, 5] : List Nat)).cursor < 4 ∧
    (∃ p, p < ([1, 2, 3, 4, 5] : List Nat).length ∧
      ([1, 2, 3, 4, 5] : List Nat).length ≤ p + 4 ∧
      ([1, 2, 3, 4, 5] : List Nat)[p]? = some 5) :=
  ⟨(C9_rotating_holder ([1, 2, 3, 4, 5] : List Nat)).1,
   (C9_rotating_holder ([1, 2, 3, 4, 5] : List Nat)).2.1 ⟨0, by omega⟩ 5
     (by decide)⟩

end Libtorrent
